import Mathlib

/-!
Shallow embedding of `src/main.py` (a weighted grade calculator).

Modelling conventions:
* Python `float` values are modelled as `ℚ` (the program only adds, multiplies
  and divides decimal inputs, so the rationals are a faithful carrier).
* Python `dict` values (weights, scores, CSV rows) are modelled as association
  lists `List (String × _)` in insertion order; `dict.get`/`[]` is first-match
  lookup.
* A line of console input, as the program sees it after `.strip()`, is a
  `Line`: the raw text together with the results of `float(raw)` and
  `int(raw)` (`none` when the conversion raises `ValueError`).
* Printed output is a `List OutputLine`; a per-student result line
  `"{name}: {pct:.2f}% -> {letter}"` is abstracted as the triple
  `(name, pct, letter)` (the `.2f` decimal rendering itself is not modelled),
  and any error message line as `OutputLine.errorMsg`.
-/

namespace GradeCalc

/-- One stripped line of user input together with the outcomes of Python
numeric conversions on it: `asFloat` is `float raw` (`none` when that raises
`ValueError`), `asInt` is `int raw` (`none` when that raises `ValueError`). -/
structure Line where
  raw : String
  asFloat : Option ℚ := none
  asInt : Option ℤ := none
deriving DecidableEq

/-- A printed line of program output (see the module docstring). -/
inductive OutputLine where
  | student (name : String) (pct : ℚ) (letter : String)
  | errorMsg (msg : String)
deriving DecidableEq

/-- `DEFAULT_WEIGHTS` from `src/main.py` lines 23-27. -/
def DEFAULT_WEIGHTS : List (String × ℚ) :=
  [("assignment", 40), ("midterm", 30), ("final", 30)]

/-- `GRADE_SCALE` from `src/main.py` lines 30-40: `(min_percentage, letter)`. -/
def GRADE_SCALE : List (ℚ × String) :=
  [(90, "A"), (85, "A-"), (80, "B+"), (75, "B"), (70, "B-"),
   (65, "C+"), (60, "C"), (50, "D"), (0, "F")]

/-- The `for min_pct, letter in GRADE_SCALE` loop of `percentage_to_letter`
(`src/main.py` lines 45-48): return the letter of the first pair whose
threshold the percentage meets or exceeds, else the fallback `"F"`. -/
def scanScale (pct : ℚ) : List (ℚ × String) → String
  | [] => "F"
  | (minPct, letter) :: rest => if pct ≥ minPct then letter else scanScale pct rest

/-- `percentage_to_letter` (`src/main.py` lines 43-48). -/
def percentage_to_letter (pct : ℚ) : String :=
  scanScale pct GRADE_SCALE

/-- `scores.get(comp, 0)` (`src/main.py` line 60): first-match lookup with
default `0`. -/
def getD (scores : List (String × ℚ)) (comp : String) : ℚ :=
  match scores.find? (fun p => p.1 == comp) with
  | some p => p.2
  | none => 0

/-- `calculate_weighted_percentage` (`src/main.py` lines 51-62): starts from
`total = 0.0` and for each `comp, weight` in `weights` adds
`scores.get(comp, 0) * (weight / 100)`. -/
def calculate_weighted_percentage (scores weights : List (String × ℚ)) : ℚ :=
  weights.foldl (fun total p => total + getD scores p.1 * (p.2 / 100)) 0

/-- `sum(weights.values())` (`src/main.py` line 103). -/
def sumVals (weights : List (String × ℚ)) : ℚ :=
  (weights.map Prod.snd).sum

/-- The weight-normalization step of `prompt_weights` (`src/main.py` lines
103-109): if the total differs from 100 by more than `1e-6`, raise
`ValueError` when the total is zero and otherwise rescale every value by
`(v / total) * 100`; else return the weights unchanged. -/
def normalize (weights : List (String × ℚ)) : Except String (List (String × ℚ)) :=
  if |sumVals weights - 100| > 1 / 1000000 then
    if sumVals weights = 0 then
      Except.error "All weights are zero; can\x27t normalize."
    else
      Except.ok (weights.map (fun p => (p.1, p.2 / sumVals weights * 100)))
  else
    Except.ok weights

/-- The inner `while True` loop of `prompt_weights` (`src/main.py` lines
90-102): read lines until one is blank (yielding the component default) or a
non-negative number; an unparsable or negative entry is re-prompted. `none`
means the input was exhausted (Python would raise `EOFError`, which `main`s
`except Exception` treats as a weight-configuration failure). -/
def read_weight (dflt : ℚ) : List Line → Option (ℚ × List Line)
  | [] => none
  | l :: rest =>
    if l.raw = "" then some (dflt, rest)
    else
      match l.asFloat with
      | some w => if w < 0 then read_weight dflt rest else some (w, rest)
      | none => read_weight dflt rest

/-- The `for comp in defaults` loop of `prompt_weights` (`src/main.py` lines
89-102): collect one weight per component, in the order of `defaults`. -/
def read_weights : List (String × ℚ) → List Line → Option (List (String × ℚ) × List Line)
  | [], lines => some ([], lines)
  | (comp, dflt) :: ds, lines =>
    match read_weight dflt lines with
    | none => none
    | some (w, rest) =>
      match read_weights ds rest with
      | none => none
      | some (ws, rest2) => some ((comp, w) :: ws, rest2)

/-- `prompt_weights` (`src/main.py` lines 79-109). `ans` is the answer to the
change-weights question as the code sees it after `.strip().lower()` (inputs
are modelled post-processing, like the `.strip()`ed `Line`s); `lines` are the
subsequent input lines. `Except.error` is a raised exception: the
`ValueError` of `normalize`, or `EOFError` when input runs out. -/
def prompt_weights (defaults : List (String × ℚ)) (ans : String) (lines : List Line) :
    Except String (List (String × ℚ)) :=
  if ans = "y" then
    match read_weights defaults lines with
    | none => Except.error "EOF when reading a line"
    | some (ws, _) => normalize ws
  else
    Except.ok defaults

/-- The inner score-entry `while True` loop (`src/main.py` lines 125-134 and
148-157): read lines until one parses as a float in `[0, 100]`; anything else
is re-prompted. `none` means the input was exhausted (`EOFError`). -/
def read_score : List Line → Option (ℚ × List Line)
  | [] => none
  | l :: rest =>
    match l.asFloat with
    | some s => if 0 ≤ s ∧ s ≤ 100 then some (s, rest) else read_score rest
    | none => read_score rest

/-- The `for comp in components` score-collection loop (`src/main.py` lines
124-134 and 147-157): build the `scores` dict in component order. -/
def read_scores : List String → List Line → Option (List (String × ℚ) × List Line)
  | [], lines => some ([], lines)
  | comp :: cs, lines =>
    match read_score lines with
    | none => none
    | some (s, rest) =>
      match read_scores cs rest with
      | none => none
      | some (scores, rest2) => some ((comp, s) :: scores, rest2)

/-- The `for i in range(count)` loop of `interactive_mode` (`src/main.py`
lines 144-160): collect `n` students, printing one result line each. The
`Bool` is true when input ran out mid-collection (an uncaught `EOFError`);
the printed lines up to that point are still returned. -/
def run_fixed (weights : List (String × ℚ)) (components : List String) :
    ℕ → List Line → List OutputLine × Bool
  | 0, _ => ([], false)
  | _ + 1, [] => ([], true)
  | n + 1, nameLine :: rest =>
    match read_scores components rest with
    | none => ([], true)
    | some (scores, rest2) =>
      let pct := calculate_weighted_percentage scores weights
      let (out, crashed) := run_fixed weights components n rest2
      (OutputLine.student nameLine.raw pct (percentage_to_letter pct) :: out, crashed)

/-- The indefinite `while True` loop of `interactive_mode` (`src/main.py`
lines 118-137): read a name, stop on `"q"` (case-insensitive), else collect
scores and print a result line. `fuel` bounds the iterations; every iteration
consumes at least one input line, so calling it with `fuel = lines.length`
is exact (fuel runs out only together with the input). -/
def run_indefinite (weights : List (String × ℚ)) (components : List String) :
    ℕ → List Line → List OutputLine × Bool
  | _, [] => ([], true)
  | 0, _ :: _ => ([], true)
  | fuel + 1, nameLine :: rest =>
    if nameLine.raw.toLower = "q" then ([], false)
    else
      match read_scores components rest with
      | none => ([], true)
      | some (scores, rest2) =>
        let pct := calculate_weighted_percentage scores weights
        let (out, crashed) := run_indefinite weights components fuel rest2
        (OutputLine.student nameLine.raw pct (percentage_to_letter pct) :: out, crashed)

/-- `interactive_mode` (`src/main.py` lines 112-160). `lines` is the input
stream after the weights prompt; the first line answers "How many students to
enter?". Returns the printed output and whether an uncaught exception
(`EOFError` on exhausted input) escaped. -/
def interactive_mode (weights : List (String × ℚ)) (lines : List Line) :
    List OutputLine × Bool :=
  let components := weights.map Prod.fst
  match lines with
  | [] => ([], true)
  | countLine :: rest =>
    if countLine.raw = "" then
      run_indefinite weights components rest.length rest
    else
      match countLine.asInt with
      | none => ([OutputLine.errorMsg "Invalid number, aborting."], false)
      | some count => run_fixed weights components count.toNat rest

/-- A CSV data row as `csv.DictReader` presents it: a mapping from field name
to the cell, where the cell carries its raw text and its `float` parse. -/
abbrev Row : Type := List (String × Line)

/-- A readable CSV file: the header field names and the data rows. -/
structure CSVFile where
  fieldnames : List String
  rows : List Row

/-- The file argument of `csv_mode`: either a file that `open` fails on
(raising `OSError` with the given message, caught by `csv_mode`) or a
readable CSV file. -/
inductive CSVSource where
  | unreadable (msg : String)
  | file (f : CSVFile)

/-- `row[field]` on a `DictReader` row. `DictReader` gives every row exactly
the header keys; a lookup outside them (which cannot arise below, since the
header is checked first) is modelled as an empty unparsable cell. -/
def rowLookup (row : Row) (field : String) : Line :=
  match row.find? (fun p => p.1 == field) with
  | some p => p.2
  | none => { raw := "" }

/-- The dict comprehension `{comp: float(row[comp]) for comp in components}`
(`src/main.py` line 75). `Except.error` is the `ValueError` raised by `float`
on the first unparsable cell (Python quotes the offending text in the
message; the quotes are elided here). -/
def rowScores (row : Row) : List String → Except String (List (String × ℚ))
  | [] => Except.ok []
  | comp :: cs =>
    match (rowLookup row comp).asFloat with
    | none => Except.error ("could not convert string to float: " ++ (rowLookup row comp).raw)
    | some q =>
      match rowScores row cs with
      | Except.error e => Except.error e
      | Except.ok scores => Except.ok ((comp, q) :: scores)

/-- The row loop of the `parse_csv` generator (`src/main.py` lines 73-76),
consumed lazily by `csv_mode`: the `(name, scores)` pairs yielded before the
first failing row, and the error raised there if any. -/
def parse_rows (components : List String) :
    List Row → List (String × List (String × ℚ)) × Option String
  | [] => ([], none)
  | row :: rest =>
    match rowScores row components with
    | Except.error e => ([], some e)
    | Except.ok scores =>
      let (pairs, err) := parse_rows components rest
      (((rowLookup row "name").raw, scores) :: pairs, err)

/-- `parse_csv` (`src/main.py` lines 65-76), as the sequence of yielded
`(name, scores)` pairs plus the exception (if any) that ends the stream: the
header check raises on the first required field missing from `fieldnames`,
before any row is yielded; otherwise rows are converted in order. -/
def parse_csv (f : CSVFile) (components : List String) :
    List (String × List (String × ℚ)) × Option String :=
  match ("name" :: components).find? (fun field => !(f.fieldnames.contains field)) with
  | some missing => ([], some ("CSV is missing required column: " ++ missing))
  | none => parse_rows components f.rows

/-- `csv_mode` (`src/main.py` lines 163-172): print one result line per
yielded student; any exception from `parse_csv` (or from `open`) is caught
and printed as `"Error processing CSV: ..."` after the rows already printed. -/
def csv_mode (src : CSVSource) (weights : List (String × ℚ)) : List OutputLine :=
  match src with
  | CSVSource.unreadable msg => [OutputLine.errorMsg ("Error processing CSV: " ++ msg)]
  | CSVSource.file f =>
    let components := weights.map Prod.fst
    let (pairs, err) := parse_csv f components
    (pairs.map fun p =>
      let pct := calculate_weighted_percentage p.2 weights
      OutputLine.student p.1 pct (percentage_to_letter pct)) ++
    (match err with
     | some e => [OutputLine.errorMsg ("Error processing CSV: " ++ e)]
     | none => [])

/-- `main` (`src/main.py` lines 175-189), as a function from the run inputs
to `(exit status, printed output)`: `csvArg` is the `--csv` argument (a
falsy/absent path selects interactive mode); `promptAns`/`promptLines` feed
`prompt_weights` and `lines` feeds `interactive_mode`. A failure in
`prompt_weights` is caught and exits with status 1; an uncaught exception in
`interactive_mode` makes the interpreter exit with status 1; everything else
exits with status 0. -/
def main (promptAns : String) (promptLines : List Line)
    (csvArg : Option CSVSource) (lines : List Line) : ℕ × List OutputLine :=
  match prompt_weights DEFAULT_WEIGHTS promptAns promptLines with
  | Except.error e => (1, [OutputLine.errorMsg ("Error with weights: " ++ e)])
  | Except.ok weights =>
    match csvArg with
    | some src => (0, csv_mode src weights)
    | none =>
      let (out, crashed) := interactive_mode weights lines
      (if crashed then 1 else 0, out)

/-! ## Helper lemmas -/

theorem sumVals_cons (p : String × ℚ) (ps : List (String × ℚ)) :
    sumVals (p :: ps) = p.2 + sumVals ps := by
  simp [sumVals]

theorem foldl_add_eq_sum {α : Type} (f : α → ℚ) :
    ∀ (l : List α) (init : ℚ), l.foldl (fun t x => t + f x) init = init + (l.map f).sum := by
  intro l
  induction l with
  | nil => intro init; simp
  | cons x xs ih =>
    intro init
    simp only [List.foldl_cons, List.map_cons, List.sum_cons, ih]
    ring

/-- `calculate_weighted_percentage` as a sum over the weight entries. -/
theorem cwp_eq_sum (scores weights : List (String × ℚ)) :
    calculate_weighted_percentage scores weights
      = (weights.map fun p => getD scores p.1 * (p.2 / 100)).sum := by
  unfold calculate_weighted_percentage
  rw [foldl_add_eq_sum (fun p => getD scores p.1 * (p.2 / 100)) weights 0]
  ring

theorem sumVals_map_rescale (w : List (String × ℚ)) (s : ℚ) :
    sumVals (w.map fun p => (p.1, p.2 / s * 100)) = sumVals w / s * 100 := by
  induction w with
  | nil => simp [sumVals]
  | cons p ps ih =>
    rw [List.map_cons, sumVals_cons, sumVals_cons, ih]
    ring

/-! ## Claim theorems -/

/-- C1: for every weight mapping with positive total, `normalize` returns the
mapping unchanged when the total is within `1e-6` of 100, and otherwise
returns a mapping with the same keys whose values are the inputs multiplied
by `100/sum`, summing to 100 (hence within `1e-6` of 100). -/
theorem normalize_positive_sum (w : List (String × ℚ)) (hpos : 0 < sumVals w) :
    (|sumVals w - 100| ≤ 1 / 1000000 → normalize w = Except.ok w) ∧
    (1 / 1000000 < |sumVals w - 100| →
      ∃ w', normalize w = Except.ok w' ∧
        w'.map Prod.fst = w.map Prod.fst ∧
        w' = w.map (fun p => (p.1, p.2 * (100 / sumVals w))) ∧
        sumVals w' = 100 ∧ |sumVals w' - 100| ≤ 1 / 1000000) := by
  have hs : sumVals w ≠ 0 := ne_of_gt hpos
  constructor
  · intro h
    unfold normalize
    rw [if_neg (not_lt.mpr h)]
  · intro h
    refine ⟨w.map fun p => (p.1, p.2 / sumVals w * 100), ?_, ?_, ?_, ?_, ?_⟩
    · unfold normalize
      rw [if_pos h, if_neg hs]
    · simp
    · refine List.map_congr_left fun p _ => ?_
      rw [Prod.mk.injEq]
      exact ⟨rfl, by ring⟩
    · rw [sumVals_map_rescale, div_mul_eq_mul_div, mul_comm, mul_div_assoc,
        div_self hs, mul_one]
    · rw [sumVals_map_rescale, div_mul_eq_mul_div, mul_comm, mul_div_assoc,
        div_self hs, mul_one]
      norm_num

/-- Witness for C1 at the concrete mapping `{"a": 50}` (sum `50 > 0`, not
within `1e-6` of 100): `normalize` rescales it to `{"a": 100}`. -/
theorem normalize_positive_sum_witness :
    normalize [("a", (50 : ℚ))] = Except.ok [("a", (100 : ℚ))] := by
  obtain ⟨w', hw, -, hval, -, -⟩ :=
    (normalize_positive_sum [("a", (50 : ℚ))] (by norm_num [sumVals])).2
      (by norm_num [sumVals])
  rw [hw, hval]
  norm_num [sumVals]

/-- C2: the weighted percentage is the sum over the components of `weights`
of `scores[comp]` (defaulting to 0 when absent) times `weights[comp]/100`;
in particular the empty score mapping yields 0 under `{"a": 100}` and
`{"a": 80}` yields 80 under `{"a": 100}`. -/
theorem calculate_weighted_percentage_spec :
    (∀ scores weights : List (String × ℚ),
      calculate_weighted_percentage scores weights
        = (weights.map fun p => getD scores p.1 * (p.2 / 100)).sum) ∧
    calculate_weighted_percentage [] [("a", 100)] = 0 ∧
    calculate_weighted_percentage [("a", 80)] [("a", 100)] = 80 := by
  refine ⟨cwp_eq_sum, ?_, ?_⟩ <;>
    norm_num [calculate_weighted_percentage, getD, List.find?]

set_option maxHeartbeats 3200000 in
/-- C3: `percentage_to_letter` returns the letter of the first threshold of
the descending `GRADE_SCALE` table that the percentage meets or exceeds:
the five sample points of the spec, and the full piecewise characterization,
including that every percentage above 100 maps to `"A"`. -/
theorem percentage_to_letter_spec :
    percentage_to_letter 90 = "A" ∧ percentage_to_letter (89999 / 1000) = "A-" ∧
    percentage_to_letter 50 = "D" ∧ percentage_to_letter (49999 / 1000) = "F" ∧
    percentage_to_letter 0 = "F" ∧
    (∀ pct : ℚ,
      (90 ≤ pct → percentage_to_letter pct = "A") ∧
      (85 ≤ pct → pct < 90 → percentage_to_letter pct = "A-") ∧
      (80 ≤ pct → pct < 85 → percentage_to_letter pct = "B+") ∧
      (75 ≤ pct → pct < 80 → percentage_to_letter pct = "B") ∧
      (70 ≤ pct → pct < 75 → percentage_to_letter pct = "B-") ∧
      (65 ≤ pct → pct < 70 → percentage_to_letter pct = "C+") ∧
      (60 ≤ pct → pct < 65 → percentage_to_letter pct = "C") ∧
      (50 ≤ pct → pct < 60 → percentage_to_letter pct = "D") ∧
      (pct < 50 → percentage_to_letter pct = "F") ∧
      (100 < pct → percentage_to_letter pct = "A")) := by
  refine ⟨by norm_num [percentage_to_letter, GRADE_SCALE, scanScale],
    by norm_num [percentage_to_letter, GRADE_SCALE, scanScale],
    by norm_num [percentage_to_letter, GRADE_SCALE, scanScale],
    by norm_num [percentage_to_letter, GRADE_SCALE, scanScale],
    by norm_num [percentage_to_letter, GRADE_SCALE, scanScale],
    fun pct => ⟨?_, ?_, ?_, ?_, ?_, ?_, ?_, ?_, ?_, ?_⟩⟩ <;>
    intros <;>
    simp only [percentage_to_letter, GRADE_SCALE, scanScale, ge_iff_le] <;>
    split_ifs <;> first | rfl | linarith

/-- Witness for C3: a percentage above 100 (here 150) maps to `"A"`. -/
theorem percentage_to_letter_spec_witness : percentage_to_letter 150 = "A" :=
  (percentage_to_letter_spec.2.2.2.2.2 150).2.2.2.2.2.2.2.2.2 (by norm_num)

/-- C4: on a weight mapping whose values sum to exactly 0, `normalize` fails
with the all-zero-weights `ValueError` and produces no mapping. -/
theorem normalize_zero_sum (w : List (String × ℚ)) (h : sumVals w = 0) :
    normalize w = Except.error "All weights are zero; can\x27t normalize." := by
  unfold normalize
  rw [h]
  norm_num

/-- Witness for C4 at the concrete mapping `{"a": 0}`. -/
theorem normalize_zero_sum_witness :
    normalize [("a", (0 : ℚ))] = Except.error "All weights are zero; can\x27t normalize." :=
  normalize_zero_sum [("a", 0)] (by norm_num [sumVals])

theorem exists_find_first {α : Type} (p : α → Bool) :
    ∀ l : List α, (∃ x ∈ l, p x) →
      ∃ m l₁ l₂, l.find? p = some m ∧ l = l₁ ++ m :: l₂ ∧ p m = true ∧
        ∀ c ∈ l₁, p c = false := by
  intro l
  induction l with
  | nil =>
    rintro ⟨x, hx, -⟩
    exact absurd hx (List.not_mem_nil x)
  | cons a as ih =>
    rintro ⟨x, hx, hpx⟩
    by_cases ha : p a
    · exact ⟨a, [], as, by simp [List.find?, ha], rfl, ha, by simp⟩
    · have hex : ∃ x ∈ as, p x := by
        rcases List.mem_cons.mp hx with rfl | hmem
        · exact absurd hpx ha
        · exact ⟨x, hmem, hpx⟩
      obtain ⟨m, l₁, l₂, hfind, hsplit, hpm, hpre⟩ := ih hex
      refine ⟨m, a :: l₁, l₂, ?_, by rw [List.cons_append, hsplit], hpm, ?_⟩
      · simp only [List.find?]
        rw [Bool.of_not_eq_true ha, hfind]
      · intro c hc
        rcases List.mem_cons.mp hc with rfl | hc'
        · exact Bool.of_not_eq_true ha
        · exact hpre c hc'

/-- C5: if the CSV header lacks `"name"` or some configured component name,
the run fails with a message naming the first missing required column (in
the order `"name"`, then the components in weight order) and prints no
student result line at all. -/
theorem csv_missing_column (weights : List (String × ℚ)) (f : CSVFile)
    (h : ∃ c ∈ "name" :: weights.map Prod.fst, ¬ c ∈ f.fieldnames) :
    ∃ m l₁ l₂,
      "name" :: weights.map Prod.fst = l₁ ++ m :: l₂ ∧
      ¬ m ∈ f.fieldnames ∧ (∀ c ∈ l₁, c ∈ f.fieldnames) ∧
      csv_mode (CSVSource.file f) weights
        = [OutputLine.errorMsg
            ("Error processing CSV: CSV is missing required column: " ++ m)] := by
  obtain ⟨m, l₁, l₂, hfind, hsplit, hpm, hpre⟩ :=
    exists_find_first (fun field => !(f.fieldnames.contains field))
      ("name" :: weights.map Prod.fst) (by simpa using h)
  refine ⟨m, l₁, l₂, hsplit, by simpa using hpm, fun c hc => by simpa using hpre c hc, ?_⟩
  simp only [csv_mode, parse_csv, hfind]
  simp only [List.map_nil, List.nil_append, List.cons.injEq, OutputLine.errorMsg.injEq,
    and_true]
  rw [← String.append_assoc]
  congr 1

theorem read_score_range :
    ∀ (lines : List Line) (s : ℚ) (rest : List Line),
      read_score lines = some (s, rest) → 0 ≤ s ∧ s ≤ 100 := by
  intro lines
  induction lines with
  | nil =>
    intro s rest h
    simp [read_score] at h
  | cons l ls ih =>
    intro s rest h
    simp only [read_score] at h
    split at h
    · split_ifs at h with hq
      · cases h
        exact hq
      · exact ih s rest h
    · exact ih s rest h

theorem read_scores_range :
    ∀ (components : List String) (lines : List Line) scores rest,
      read_scores components lines = some (scores, rest) →
      ∀ p ∈ scores, 0 ≤ p.2 ∧ p.2 ≤ 100 := by
  intro components
  induction components with
  | nil =>
    intro lines scores rest h p hp
    simp only [read_scores, Option.some.injEq, Prod.mk.injEq] at h
    obtain ⟨rfl, -⟩ := h
    simp at hp
  | cons c cs ih =>
    intro lines scores rest h p hp
    simp only [read_scores] at h
    split at h
    · exact absurd h (by simp)
    · rename_i s rest1 hrs
      split at h
      · exact absurd h (by simp)
      · rename_i scores1 rest2 hrss
        simp only [Option.some.injEq, Prod.mk.injEq] at h
        obtain ⟨h1, -⟩ := h
        subst h1
        rcases List.mem_cons.mp hp with rfl | hp'
        · exact read_score_range _ _ _ hrs
        · exact ih _ _ _ hrss p hp'

/-- Witness for C5: a CSV whose header is only `name`, under the single
component `a`, fails naming column `a` and prints no student row. -/
theorem csv_missing_column_witness :
    ∃ m l₁ l₂,
      "name" :: [("a", (1 : ℚ))].map Prod.fst = l₁ ++ m :: l₂ ∧
      ¬ m ∈ (CSVFile.mk ["name"] []).fieldnames ∧
      (∀ c ∈ l₁, c ∈ (CSVFile.mk ["name"] []).fieldnames) ∧
      csv_mode (CSVSource.file (CSVFile.mk ["name"] [])) [("a", (1 : ℚ))]
        = [OutputLine.errorMsg
            ("Error processing CSV: CSV is missing required column: " ++ m)] :=
  csv_missing_column [("a", 1)] (CSVFile.mk ["name"] []) ⟨"a", by simp, by simp⟩

/-- C6: every score the interactive entry loop accepts lies in `[0, 100]`
(scores outside the range or unparsable are re-prompted), while CSV mode
applies no range check: a CSV row with score 150 under weight 100 is printed
with weighted percentage 150 — above 100 — and letter grade `"A"`. -/
theorem interactive_range_csv_unclamped :
    (∀ (components : List String) (lines : List Line) scores rest,
      read_scores components lines = some (scores, rest) →
      ∀ p ∈ scores, 0 ≤ p.2 ∧ p.2 ≤ 100) ∧
    csv_mode (CSVSource.file (CSVFile.mk ["name", "a"]
        [[("name", { raw := "Bob" }), ("a", { raw := "150", asFloat := some 150 })]]))
      [("a", 100)]
      = [OutputLine.student "Bob" 150 "A"] ∧
    (100 : ℚ) < 150 ∧ percentage_to_letter 150 = "A" := by
  refine ⟨read_scores_range, ?_, by norm_num,
    by norm_num [percentage_to_letter, GRADE_SCALE, scanScale]⟩
  have hb1 : (("name" : String) == "a") = false := by decide
  have hb2 : (("a" : String) == "a") = true := by decide
  norm_num [csv_mode, parse_csv, parse_rows, rowScores, rowLookup, List.find?,
    calculate_weighted_percentage, getD, percentage_to_letter, GRADE_SCALE, scanScale,
    hb1, hb2]

/-- Witness for C6: the interactive loop accepting the line `"80"` yields the
in-range score 80. -/
theorem interactive_range_witness : 0 ≤ (80 : ℚ) ∧ (80 : ℚ) ≤ 100 :=
  interactive_range_csv_unclamped.1 ["a"] [{ raw := "80", asFloat := some 80 }]
    [("a", 80)] []
    (by norm_num [read_scores, read_score]) ("a", 80) (by simp)

/-- C7: in CSV mode the process exits with status 0 exactly when
`prompt_weights` succeeds — whatever the CSV source is, its errors are caught
inside `csv_mode` (an unreadable file prints `"Error processing CSV: ..."`),
so only a weight-configuration failure forces the non-zero exit; an
interactive run that finishes without an uncaught exception also exits 0. -/
theorem csv_errors_do_not_change_exit_status (a : String) (t : List Line)
    (src : CSVSource) (ls : List Line) :
    ((main a t (some src) ls).1 = 0 ↔
      ∃ w, prompt_weights DEFAULT_WEIGHTS a t = Except.ok w) ∧
    (∀ w, prompt_weights DEFAULT_WEIGHTS a t = Except.ok w →
      main a t (some src) ls = (0, csv_mode src w)) ∧
    (∀ (w : List (String × ℚ)) (msg : String),
      csv_mode (CSVSource.unreadable msg) w
        = [OutputLine.errorMsg ("Error processing CSV: " ++ msg)]) ∧
    (∀ w out, prompt_weights DEFAULT_WEIGHTS a t = Except.ok w →
      interactive_mode w ls = (out, false) →
      main a t none ls = (0, out)) := by
  cases hp : prompt_weights DEFAULT_WEIGHTS a t with
  | error e =>
    refine ⟨by simp [main, hp], ?_, fun w msg => rfl, ?_⟩
    · intro w hw
      exact absurd hw (by simp)
    · intro w out hw
      exact absurd hw (by simp)
  | ok w0 =>
    refine ⟨by simp [main, hp], ?_, fun w msg => rfl, ?_⟩
    · intro w hw
      cases hw
      simp [main, hp]
    · intro w out hw hrun
      cases hw
      simp [main, hp, hrun]

/-- Witness for C7: with defaults accepted (answer `"n"`) and an unreadable
CSV file, the run still exits with status 0. -/
theorem csv_errors_exit_witness :
    (main "n" [] (some (CSVSource.unreadable "No such file or directory")) []).1 = 0 :=
  (csv_errors_do_not_change_exit_status "n" []
      (CSVSource.unreadable "No such file or directory") []).1.mpr
    ⟨DEFAULT_WEIGHTS, rfl⟩

/-- C8: in fixed-count interactive mode, a non-blank count line that does not
parse as an integer makes the whole run print `"Invalid number, aborting."`
and return before collecting any student data, and (when the weights were
configured successfully) the process exits with status 0. -/
theorem invalid_count_aborts (weights : List (String × ℚ)) (countLine : Line)
    (rest : List Line) (hraw : countLine.raw ≠ "") (hint : countLine.asInt = none) :
    interactive_mode weights (countLine :: rest)
      = ([OutputLine.errorMsg "Invalid number, aborting."], false) ∧
    (∀ a t w, prompt_weights DEFAULT_WEIGHTS a t = Except.ok w →
      main a t none (countLine :: rest)
        = (0, [OutputLine.errorMsg "Invalid number, aborting."])) := by
  have h1 : ∀ ws : List (String × ℚ), interactive_mode ws (countLine :: rest)
      = ([OutputLine.errorMsg "Invalid number, aborting."], false) := by
    intro ws
    simp [interactive_mode, hraw, hint]
  refine ⟨h1 weights, fun a t w hw => ?_⟩
  simp [main, hw, h1 w]

/-- Witness for C8: count line `"x"` (unparsable), defaults accepted. -/
theorem invalid_count_aborts_witness :
    main "n" [] none [{ raw := "x" }]
      = (0, [OutputLine.errorMsg "Invalid number, aborting."]) :=
  (invalid_count_aborts DEFAULT_WEIGHTS { raw := "x" } [] (by simp) rfl).2
    "n" [] DEFAULT_WEIGHTS rfl

theorem getD_append_of_disjoint (scores extra : List (String × ℚ)) (c : String)
    (h : ∀ p ∈ extra, p.1 ≠ c) : getD (scores ++ extra) c = getD scores c := by
  unfold getD
  rw [List.find?_append]
  cases hs : scores.find? (fun p => p.1 == c) with
  | some p => simp
  | none =>
    have hextra : extra.find? (fun p => p.1 == c) = none := by
      rw [List.find?_eq_none]
      intro p hp
      simpa using h p hp
    simp [hextra]

/-- C9: score entries whose component does not occur in the weights have no
effect: appending to the scores any entries whose keys are disjoint from the
weight keys leaves the weighted percentage unchanged. -/
theorem extra_scores_ignored (scores extra weights : List (String × ℚ))
    (h : ∀ p ∈ extra, ∀ q ∈ weights, p.1 ≠ q.1) :
    calculate_weighted_percentage (scores ++ extra) weights
      = calculate_weighted_percentage scores weights := by
  rw [cwp_eq_sum, cwp_eq_sum]
  congr 1
  refine List.map_congr_left fun q hq => ?_
  rw [getD_append_of_disjoint scores extra q.1 (fun p hp => h p hp q hq)]

/-- Witness for C9: adding the unweighted entry `("b", 50)` to the scores
leaves the result under weights `{"a": 100}` unchanged. -/
theorem extra_scores_ignored_witness :
    calculate_weighted_percentage ([("a", (80 : ℚ))] ++ [("b", (50 : ℚ))]) [("a", 100)]
      = calculate_weighted_percentage [("a", (80 : ℚ))] [("a", 100)] :=
  extra_scores_ignored [("a", 80)] [("b", 50)] [("a", 100)] (by simp)

/-- C10: in fixed-count interactive mode, a count that parses as an integer
`≤ 0` (negative included) is accepted without any error: zero students are
collected, nothing is printed, and the run returns normally (exit status 0
when the weights were configured successfully). -/
theorem nonpositive_count_collects_nothing (weights : List (String × ℚ))
    (countLine : Line) (rest : List Line) (c : ℤ) (hraw : countLine.raw ≠ "")
    (hint : countLine.asInt = some c) (hc : c ≤ 0) :
    interactive_mode weights (countLine :: rest) = ([], false) ∧
    (∀ a t w, prompt_weights DEFAULT_WEIGHTS a t = Except.ok w →
      main a t none (countLine :: rest) = (0, [])) := by
  have htn : c.toNat = 0 := Int.toNat_of_nonpos hc
  have h1 : ∀ ws : List (String × ℚ), interactive_mode ws (countLine :: rest)
      = ([], false) := by
    intro ws
    simp [interactive_mode, hraw, hint, htn, run_fixed]
  refine ⟨h1 weights, fun a t w hw => ?_⟩
  simp [main, hw, h1 w]

/-- Witness for C10: count line `"-3"` (parsing to `-3 ≤ 0`), defaults
accepted: no output and exit status 0. -/
theorem nonpositive_count_witness :
    main "n" [] none [{ raw := "-3", asInt := some (-3) }] = (0, []) :=
  (nonpositive_count_collects_nothing DEFAULT_WEIGHTS
      { raw := "-3", asInt := some (-3) } [] (-3) (by simp) rfl (by norm_num)).2
    "n" [] DEFAULT_WEIGHTS rfl

end GradeCalc
